import Mathlib

/-!
Verification development for the MeschaTUI repository.

The Python source under `src/meshchat_ui/` is shallowly embedded below:
pure computations become Lean functions, stateful methods become explicit
state-passing functions, external driver calls become parameters describing
the driver's observable behaviour (success / failure of each call), and
fallible paths return explicit outcome values.
-/

namespace MeschaTUI

/-! ### Configuration constants (src/meshchat_ui/config.py) -/

/-- `BLE_CONNECT_TIMEOUT = 10.0` (seconds).  Only its presence matters here. -/
def BLE_CONNECT_TIMEOUT : Nat := 10

/-- `BLE_MAX_RETRIES = 3` -/
def BLE_MAX_RETRIES : Nat := 3

/-- `BLE_RETRY_DELAY = 5` (seconds) -/
def BLE_RETRY_DELAY : Nat := 5

/-- `BLE_MAX_CHANNEL_ATTEMPTS = 8` -/
def BLE_MAX_CHANNEL_ATTEMPTS : Nat := 8

/-! ### BLE connect loop (`BluetoothRadio.connect`, src/meshchat_ui/radio/connector.py lines 34-60)

Each iteration of the Python `for attempt in range(BLE_MAX_RETRIES + 1)` loop
performs one driver connect attempt; its outcome is one of: plain success,
`asyncio.TimeoutError`, a recognized transport failure
(`ConnectionError`/`BleakDBusError`/`AttributeError`), or any other exception.
The outcome of each attempt is a parameter `outcomes : Nat → AttemptOutcome`. -/

inductive AttemptOutcome where
  | success
  | timeout
  | transportError (msg : String)
  | unexpectedError (msg : String)
deriving DecidableEq

/-- Observable trace of one `connect()` run: the returned `(bool, message)`
pair, the number of driver connect attempts performed, and the list of
`asyncio.sleep` delays performed (in seconds, in order). -/
structure ConnectTrace where
  ok : Bool
  message : Option String
  attempts : Nat
  delays : List Nat
deriving DecidableEq

/-- One iteration of the retry loop, starting at `attempt`, with `fuel`
iterations of `range(BLE_MAX_RETRIES + 1)` left.  Mirrors connector.py
lines 40-60; the `fuel = 0` case is the (dead) fall-through return after
the loop (line 60). -/
def bleConnectAux (outcomes : Nat → AttemptOutcome) (attempt : Nat) : Nat → ConnectTrace
  | 0 => ⟨false, some "Failed to connect to radio after multiple attempts.", 0, []⟩
  | fuel + 1 =>
    match outcomes attempt with
    | .success => ⟨true, none, 1, []⟩
    | .timeout =>
      if BLE_MAX_RETRIES ≤ attempt then
        ⟨false, some "Connection attempt timed out.", 1, []⟩
      else
        let rest := bleConnectAux outcomes (attempt + 1) fuel
        ⟨rest.ok, rest.message, rest.attempts + 1, BLE_RETRY_DELAY * 2 ^ attempt :: rest.delays⟩
    | .transportError m =>
      if BLE_MAX_RETRIES ≤ attempt then
        ⟨false, some ("Failed to connect after multiple attempts: " ++ m), 1, []⟩
      else
        let rest := bleConnectAux outcomes (attempt + 1) fuel
        ⟨rest.ok, rest.message, rest.attempts + 1, BLE_RETRY_DELAY * 2 ^ attempt :: rest.delays⟩
    | .unexpectedError m =>
      if BLE_MAX_RETRIES ≤ attempt then
        ⟨false, some ("An unexpected error occurred: " ++ m), 1, []⟩
      else
        let rest := bleConnectAux outcomes (attempt + 1) fuel
        ⟨rest.ok, rest.message, rest.attempts + 1, BLE_RETRY_DELAY * 2 ^ attempt :: rest.delays⟩

/-- `BluetoothRadio.connect` retry loop (connector.py lines 40-60). -/
def bleConnect (outcomes : Nat → AttemptOutcome) : ConnectTrace :=
  bleConnectAux outcomes 0 (BLE_MAX_RETRIES + 1)

/-! ### Inbound message handling (`RadioHandler`, src/meshchat_ui/radio/handler.py)

`message_callback` (lines 45-145) is a pure computation of the event payload
plus the app's current `contacts` list and `channels` dict, followed by one
`app.add_message` call; it is embedded as a function returning the displayed
line.  Python string truthiness (`if s:`) is `strTruthy` / `natTruthy`. -/

/-- Python truthiness of an optional string payload field. -/
def strTruthy : Option String → Bool
  | none => false
  | some s => !(s == "")

/-- Python truthiness of an optional numeric payload field. -/
def natTruthy : Option Nat → Bool
  | none => false
  | some t => !(t == 0)

/-- A contact as stored in `MeshChatApp.contacts` (dicts with `"name"`,
`"type"`, `"public_key"`; only the fields `message_callback` reads). -/
structure Contact where
  name : String
  public_key : String
deriving DecidableEq

/-- The two message event types `message_callback` is subscribed to. -/
inductive EventKind where
  | contactMsgRecv
  | channelMsgRecv
deriving DecidableEq

/-- The payload fields `message_callback` reads from a message event. -/
structure MsgEvent where
  kind : EventKind
  text : String
  pubkey_pfx : Option String
  sender : Option String
  sender_name : Option String
  channel_idx : Option Nat
  sender_timestamp : Option Nat

/-- Scan for the closing `]` of an `@[` marker: Python's lazy `(.*?)\]`
stops at the first `]`, and `.` does not match a newline, so a newline
before any `]` means no match.  Returns the chars before the `]` and the
chars after it. -/
def scanMention : List Char → Option (List Char × List Char)
  | [] => none
  | c :: cs =>
    if c = ']' then some ([], cs)
    else if c = '\n' then none
    else (scanMention cs).map fun p => (c :: p.1, p.2)

/-- `re.sub(r'@\[(.*?)\]', r'@\1', text)` (handler.py line 53), one
left-to-right pass; `fuel` is an upper bound on the scan length. -/
def stripMentionAux : Nat → List Char → List Char
  | 0, l => l
  | _ + 1, [] => []
  | fuel + 1, '@' :: '[' :: rest =>
    match scanMention rest with
    | some (inner, rest2) => '@' :: (inner ++ stripMentionAux fuel rest2)
    | none => '@' :: stripMentionAux fuel ('[' :: rest)
  | fuel + 1, c :: rest => c :: stripMentionAux fuel rest

/-- Mention-markup normalization `@[name] → @name` applied to a string. -/
def normalizeMentions (s : String) : String :=
  String.mk (stripMentionAux s.data.length s.data)

/-- Python `str.strip()` whitespace set (ASCII part). -/
def pyWhitespace (c : Char) : Bool :=
  c == ' ' || c == '\t' || c == '\n' || c == '\r' || c == '\x0b' || c == '\x0c'

/-- Python `str.strip()` on a char list. -/
def pyStrip (l : List Char) : List Char :=
  ((l.dropWhile pyWhitespace).reverse.dropWhile pyWhitespace).reverse

/-- Split a char list at its first `:`; `none` when no `:` occurs. -/
def splitOnColon : List Char → Option (List Char × List Char)
  | [] => none
  | c :: cs =>
    if c = ':' then some ([], cs)
    else (splitOnColon cs).map fun p => (c :: p.1, p.2)

/-- `re.match(r'^([^:]+):', text)` (handler.py line 93) followed by
`match.group(1).strip()` and `text[len(match.group(0)):].strip()`:
yields the stripped extracted name and the stripped remainder, or `none`
when the text has no colon or nothing before its first colon. -/
def leadingNameSplit (s : String) : Option (String × String) :=
  match splitOnColon s.data with
  | none => none
  | some (before, after) =>
    if before.isEmpty then none
    else some (String.mk (pyStrip before), String.mk (pyStrip after))

/-- The attribution computed by `message_callback`: the final
`determined_sender_name`, `is_known_contact`, and `message_text`. -/
structure Attribution where
  label : String
  isKnown : Bool
  text : String
deriving DecidableEq

/-- Sender resolution of `message_callback` (handler.py lines 50-121),
with the Python locals `determined_sender_name` / `is_known_contact` /
`message_text` threaded through the numbered steps exactly as in the
source (each `for ... break` loop over `self.app.contacts` is a
`List.find?`). -/
def message_callback_resolution (contacts : List Contact) (ev : MsgEvent) : Attribution :=
  let message_text := normalizeMentions ev.text
  let step1 : Option String × Bool :=
    if strTruthy ev.sender then
      match contacts.find? fun c => c.public_key == ev.sender.getD "" with
      | some c => (some c.name, true)
      | none => (none, false)
    else (none, false)
  let step2 : Option String × Bool :=
    if !step1.2 && strTruthy ev.pubkey_pfx then
      match contacts.find? fun c => (ev.pubkey_pfx.getD "").data.isPrefixOf c.public_key.data with
      | some c => (some c.name, true)
      | none => step1
    else step1
  let step3 : Option String × Bool × String :=
    if step2.1 = none ∧ ev.kind = EventKind.channelMsgRecv then
      match leadingNameSplit ev.text with
      | some (extracted, remainder) =>
        match contacts.find? fun c => c.name == extracted with
        | some c => (some c.name, true, remainder)
        | none => (some extracted, step2.2, remainder)
      | none => (step2.1, step2.2, message_text)
    else (step2.1, step2.2, message_text)
  let step4 : Option String :=
    if step3.1 = none ∧ strTruthy ev.sender_name then ev.sender_name else step3.1
  let step5 : Option String :=
    if step4 = none ∧ strTruthy ev.pubkey_pfx then ev.pubkey_pfx else step4
  { label := step5.getD "Unknown", isKnown := step3.2.1, text := step3.2.2 }

/-- The sender-resolution rules as the specification words them: a fixed
rule order, first applicable rule wins.  (1) full-key contact match;
(2) key-prefix contact match; (3) for channel messages only, a leading
`name: ` parsed from the raw text, marked known exactly when the name
equals some contact's name, the prefix stripped from the displayed text;
(4) the payload sender display name; (5) the raw key prefix; (6) the
literal `"Unknown"`. -/
def specSenderResolution (contacts : List Contact) (ev : MsgEvent) : Attribution :=
  let normText := normalizeMentions ev.text
  match (if strTruthy ev.sender then
      contacts.find? fun c => c.public_key == ev.sender.getD "" else none) with
  | some c => ⟨c.name, true, normText⟩
  | none =>
  match (if strTruthy ev.pubkey_pfx then
      contacts.find? fun c => (ev.pubkey_pfx.getD "").data.isPrefixOf c.public_key.data
    else none) with
  | some c => ⟨c.name, true, normText⟩
  | none =>
  match (if ev.kind = EventKind.channelMsgRecv then leadingNameSplit ev.text else none) with
  | some (extracted, remainder) =>
    ⟨extracted, contacts.any fun c => c.name == extracted, remainder⟩
  | none =>
  match (if strTruthy ev.sender_name then ev.sender_name else none) with
  | some n => ⟨n, false, normText⟩
  | none =>
  match (if strTruthy ev.pubkey_pfx then ev.pubkey_pfx else none) with
  | some p => ⟨p, false, normText⟩
  | none => ⟨"Unknown", false, normText⟩

/-- Whether the run of `message_callback` strips a leading `name: ` prefix
in step 3 (channel message, no key-based contact match, parsable prefix). -/
def stripsLeadingName (contacts : List Contact) (ev : MsgEvent) : Bool :=
  ev.kind == EventKind.channelMsgRecv &&
  !(strTruthy ev.sender &&
      (contacts.any fun c => c.public_key == ev.sender.getD "")) &&
  !(strTruthy ev.pubkey_pfx &&
      (contacts.any fun c => (ev.pubkey_pfx.getD "").data.isPrefixOf c.public_key.data)) &&
  (leadingNameSplit ev.text).isSome

/-- `local_time` (handler.py line 62): the strftime rendering is the
external parameter `fmt`; the Python conditional is on the truthiness of
the `sender_timestamp` payload field. -/
def local_time (fmt : Nat → String) (ts : Option Nat) : String :=
  if natTruthy ts then fmt (ts.getD 0) else "No timestamp"

/-- `channels_by_id = {v: k for k, v in self.app.channels.items()}`
(handler.py line 133): reversed pairs of the name→id dict; a later pair
overwrites an earlier one with the same id. -/
def channels_by_id (channels : List (String × Nat)) : List (Nat × String) :=
  channels.map fun p => (p.2, p.1)

/-- Python dict lookup on a pair list where a later binding of the same
key overwrites an earlier one. -/
def dictGetLast (l : List (Nat × String)) (k : Nat) : Option String :=
  (l.reverse.find? fun p => p.1 == k).map fun p => p.2

/-- `channels_by_id.get(channel_id, f"Channel {channel_id}")`
(handler.py line 134) for a present channel id. -/
def channel_label (channels : List (String × Nat)) (idx : Nat) : String :=
  match dictGetLast (channels_by_id channels) idx with
  | some n => n
  | none => "Channel " ++ toString idx

/-- Channel label including the absent-id case (`f"Channel None"`). -/
def channel_label_opt (channels : List (String × Nat)) (idx : Option Nat) : String :=
  match idx with
  | some i => channel_label channels i
  | none => "Channel None"

/-- The full displayed line built by `message_callback`
(handler.py lines 126-142). -/
def message_callback (contacts : List Contact) (channels : List (String × Nat))
    (fmt : Nat → String) (ev : MsgEvent) : String :=
  let a := message_callback_resolution contacts ev
  let t := local_time fmt ev.sender_timestamp
  match ev.kind with
  | .contactMsgRecv => t ++ " [DM] " ++ a.label ++ ": " ++ a.text
  | .channelMsgRecv =>
    let cl := channel_label_opt channels ev.channel_idx
    if a.isKnown then t ++ " [" ++ cl ++ "] " ++ a.label ++ ": " ++ a.text
    else t ++ " [" ++ cl ++ "] Unknown Sender: " ++ a.label ++ ": " ++ a.text

/-! ### Event subscriptions (`RadioHandler.start_listening` / `stop_listening`,
src/meshchat_ui/radio/handler.py lines 154-177)

`meshcore.subscribe` is modelled as allocating a fresh handle per call;
`meshcore.unsubscribe(h)` may raise, which is the parameter
`fails : Nat → Bool` on the handle. -/

/-- The three event categories `start_listening` subscribes to. -/
inductive EvCategory where
  | contact_msg_recv
  | channel_msg_recv
  | contacts
deriving DecidableEq

/-- A retained subscription handle, tagged with its category. -/
structure Subscription where
  category : EvCategory
  handle : Nat
deriving DecidableEq

/-- The state of a `RadioHandler`: the retained `self.subscriptions` list,
the driver's next fresh handle, and whether auto message fetching runs. -/
structure HandlerState where
  subscriptions : List Subscription
  nextHandle : Nat
  autoFetch : Bool
deriving DecidableEq

/-- `RadioHandler.__init__`: `self.subscriptions = []`. -/
def initHandler : HandlerState := ⟨[], 0, false⟩

/-- `start_listening` (handler.py lines 154-170): subscribe to the three
categories, extend `self.subscriptions` with the three handles, start
auto message fetching. -/
def start_listening (s : HandlerState) : HandlerState :=
  { subscriptions := s.subscriptions ++
      [⟨.contact_msg_recv, s.nextHandle⟩, ⟨.channel_msg_recv, s.nextHandle + 1⟩,
        ⟨.contacts, s.nextHandle + 2⟩],
    nextHandle := s.nextHandle + 3,
    autoFetch := true }

/-- The `for subscription in self.subscriptions: self.meshcore.unsubscribe(...)`
loop of `stop_listening` (handler.py lines 174-175): returns the handles
unsubscribed before the first raising call, and whether a call raised. -/
def unsubscribeLoop (fails : Nat → Bool) : List Subscription → List Subscription × Bool
  | [] => ([], false)
  | sub :: rest =>
    if fails sub.handle then ([], true)
    else
      let r := unsubscribeLoop fails rest
      (sub :: r.1, r.2)

/-- `stop_listening` (handler.py lines 172-177).  A raising `unsubscribe`
aborts the method (there is no try/except inside it), so the list reset
and the auto-fetch stop are skipped; otherwise the list is cleared and
auto-fetch stopped.  Returns the new state, the driver-side list of
unsubscribed handles, and whether an exception escaped. -/
def stop_listening (fails : Nat → Bool) (s : HandlerState) :
    HandlerState × List Subscription × Bool :=
  let r := unsubscribeLoop fails s.subscriptions
  if r.2 then (s, r.1, true)
  else ({ s with subscriptions := [], autoFetch := false }, r.1, false)

/-- An operation issued to the handler during normal (non-raising) use. -/
inductive HandlerOp where
  | start
  | stop
deriving DecidableEq

/-- Apply one operation (stop with no driver failures). -/
def applyOp : HandlerOp → HandlerState → HandlerState
  | .start, s => start_listening s
  | .stop, s => (stop_listening (fun _ => false) s).1

/-- Run a sequence of operations. -/
def runOps : List HandlerOp → HandlerState → HandlerState
  | [], s => s
  | op :: rest, s => runOps rest (applyOp op s)

/-- Number of `start` operations after the last `stop` (with accumulator
`n` = starts already seen). -/
def startsAfterLastStop : List HandlerOp → Nat → Nat
  | [], n => n
  | .start :: rest, n => startsAfterLastStop rest (n + 1)
  | .stop :: rest, _ => startsAfterLastStop rest 0

/-- The category pattern one `start_listening` call appends. -/
def subPattern : List EvCategory :=
  [.contact_msg_recv, .channel_msg_recv, .contacts]

/-! ### Connection lifecycle (`RadioConnector`, src/meshchat_ui/radio/connector.py
lines 99-140)

`self.radio`, `self.radio.meshcore` and `self.radio_handler` are modelled
as presence flags; errors logged by the `except` block are counted. -/

/-- Ownership state of a `RadioConnector`: whether `self.radio` is set,
whether `self.radio.meshcore` (the driver session) is live, whether
`self.radio_handler` is set, and how many errors were logged. -/
structure ConnectorState where
  radioPresent : Bool
  sessionActive : Bool
  handlerPresent : Bool
  errorsLogged : Nat
deriving DecidableEq

/-- `RadioConnector.connect_radio` (connector.py lines 115-121) with the
overall success of `self.radio.connect()` as a parameter: on success the
session is live and a fresh `RadioHandler` is installed; on failure the
radio object keeps no session (`BluetoothRadio.connect` leaves
`self.meshcore = None` after exhausting its retries) and the handler
reference is left as it was. -/
def connect_radio (attemptSucceeds : Bool) (s : ConnectorState) : ConnectorState × Bool :=
  if s.radioPresent then
    if attemptSucceeds then
      ({ s with sessionActive := true, handlerPresent := true }, true)
    else
      ({ s with sessionActive := false }, false)
  else (s, false)

/-- `RadioConnector.disconnect` (connector.py lines 123-135).  The guard is
`if self.radio and self.radio.meshcore:`; inside it, `stop_listening` (only
if a handler is present) and then the driver disconnect may raise
(`stopRaises` / `driverRaises`) — the `except` logs one error, and the
`finally` clears `self.radio` and `self.radio_handler` regardless. -/
def connector_disconnect (stopRaises driverRaises : Bool) (s : ConnectorState) : ConnectorState :=
  if s.radioPresent && s.sessionActive then
    let raisedInStop := s.handlerPresent && stopRaises
    let raised := raisedInStop || (!raisedInStop && driverRaises)
    { radioPresent := false, sessionActive := false, handlerPresent := false,
      errorsLogged := s.errorsLogged + (if raised then 1 else 0) }
  else s

/-! ### Outbound dispatch and list fetching (`RadioConnector`,
src/meshchat_ui/radio/connector.py lines 142-238)

`self.get_meshcore()` is `mc : Option Unit`; a driver send that raises is
`some errText` / `true` in the failure parameter.  Each model also returns
the number of driver send calls made, to express "never retried". -/

/-- `RadioConnector.send_message` (lines 214-225): the returned
`(bool, message)` pair and the number of driver `send_msg` calls. -/
def send_message (mc : Option Unit) (sendFails : Option String) :
    (Bool × Option String) × Nat :=
  match mc with
  | none => ((false, some "Radio not connected. Cannot send message."), 0)
  | some _ =>
    match sendFails with
    | none => ((true, none), 1)
    | some e => ((false, some ("Error sending message: " ++ e)), 1)

/-- `RadioConnector.send_channel_message` (lines 227-238). -/
def send_channel_message (mc : Option Unit) (sendFails : Option String) :
    (Bool × Option String) × Nat :=
  match mc with
  | none => ((false, some "Radio not connected. Cannot send channel message."), 0)
  | some _ =>
    match sendFails with
    | none => ((true, none), 1)
    | some e => ((false, some ("Error sending channel message: " ++ e)), 1)

/-- `RadioConnector.send_advert` (lines 202-212): returns a bare `bool`,
plus the number of driver `send_advert` calls. -/
def send_advert (mc : Option Unit) (sendFails : Bool) : Bool × Nat :=
  match mc with
  | none => (false, 0)
  | some _ => (if sendFails then false else true, 1)

/-- A contact entry as delivered by `meshcore.commands.get_contacts()`:
the payload dict maps the public key to a dict read via
`.get("adv_name")`, `.get("name")`, `.get("type")`. -/
structure ContactEntry where
  adv_name : Option String
  cname : Option String
  ctype : Option Nat
deriving DecidableEq

/-- `contact_entry.get("adv_name") or contact_entry.get("name") or
f"contact_{key}"` (connector.py lines 154-159), with Python `or`
truthiness. -/
def entryName (key : String) (e : ContactEntry) : String :=
  if strTruthy e.adv_name then e.adv_name.getD ""
  else if strTruthy e.cname then e.cname.getD ""
  else "contact_" ++ key

/-- A contact record as built by `get_contacts_and_channels`. -/
structure FetchedContact where
  name : String
  ctype : Option Nat
  public_key : String
deriving DecidableEq

/-- Outcome of one `meshcore.commands.get_channel(idx)` probe: an
exception, an `EventType.ERROR` (or falsy) result, or a payload whose
`channel_name` field is `channel_name`. -/
inductive ProbeOutcome where
  | errRaised
  | evErr
  | ok (channel_name : Option String)
deriving DecidableEq

/-- `RadioConnector.get_contacts_and_channels` (connector.py lines 142-180).
`contactsResult = none` models a raising or `EventType.ERROR` contacts
fetch; each channel probe outcome comes from `probe`.  The `none` link
case returns the same empty dict as a successful empty fetch. -/
def get_contacts_and_channels (mc : Option Unit)
    (contactsResult : Option (List (String × ContactEntry)))
    (probe : Nat → ProbeOutcome) :
    List FetchedContact × List (String × Nat) :=
  match mc with
  | none => ([], [])
  | some _ =>
    let contacts := match contactsResult with
      | none => []
      | some payload => payload.map fun p => ⟨entryName p.1 p.2, p.2.ctype, p.1⟩
    let channels := (List.range BLE_MAX_CHANNEL_ATTEMPTS).filterMap fun idx =>
      match probe idx with
      | .ok (some n) => if n == "" then none else some (n, idx)
      | _ => none
    (contacts, channels)

/-! ### Channel join / overwrite workflow

`RadioConnector.join_public_channel` and
`RadioConnector.overwrite_public_channel` are called by
`MeshChatApp.process_join_command` (src/meshchat_ui/tui/app.py lines
143-173) but their definitions are absent from src/; they are modelled
from the spec (§4.4). -/

/-- Modelled from the spec: the result alphabet of the missing
`RadioConnector.join_public_channel` / `overwrite_public_channel`
(spec §4.4 `{Joined | OverwriteRequired(occupiedSlots) | Failed(reason)}`). -/
inductive JoinOutcome where
  | joined
  | overwriteRequired (occupied : List (Nat × String))
  | failed (reason : String)
deriving DecidableEq

/-- The occupied `(id, name)` slots of a radio whose channel slots are
`slots` (slot `i` holds `slots[i]`, `none` = empty), starting at index `i`. -/
def slotsOccupiedFrom (i : Nat) : List (Option String) → List (Nat × String)
  | [] => []
  | none :: rest => slotsOccupiedFrom (i + 1) rest
  | some n :: rest => (i, n) :: slotsOccupiedFrom (i + 1) rest

/-- All occupied `(id, name)` slots. -/
def slotsOccupied (slots : List (Option String)) : List (Nat × String) :=
  slotsOccupiedFrom 0 slots

/-- Index of the first empty slot at or after `i`, if any. -/
def firstEmptySlotFrom (i : Nat) : List (Option String) → Option Nat
  | [] => none
  | none :: _ => some i
  | some _ :: rest => firstEmptySlotFrom (i + 1) rest

/-- Index of the first empty slot. -/
def firstEmptySlot (slots : List (Option String)) : Option Nat :=
  firstEmptySlotFrom 0 slots

/-- Modelled from the spec: `RadioConnector.join_public_channel(name)`
(absent from src/; spec §4.4): query the active link's slots; if an empty
slot exists, commit the join there and return Joined; otherwise return
OverwriteRequired with the full occupied-slot list and mutate nothing. -/
def join_public_channel (slots : List (Option String)) (name : String) :
    JoinOutcome × List (Option String) :=
  match firstEmptySlot slots with
  | some i => (.joined, slots.set i (some name))
  | none => (.overwriteRequired (slotsOccupied slots), slots)

/-- Modelled from the spec: `RadioConnector.overwrite_public_channel(name,
chosenSlotId)` (absent from src/; spec §4.4): commit the join into the
chosen slot, replacing its previous occupant, and return Joined. -/
def overwrite_public_channel (slots : List (Option String)) (name : String)
    (slotId : Nat) : JoinOutcome × List (Option String) :=
  if slotId < slots.length then (.joined, slots.set slotId (some name))
  else (.failed "invalid slot", slots)

/-- C1: For the BLE transport, a run of `connect()` in which every attempt
fails makes exactly `BLE_MAX_RETRIES + 1` connection attempts and waits
`BLE_RETRY_DELAY * 2 ^ (n - 1)` seconds before attempt `n` for every `n ≥ 1`
(attempts 0-indexed), with no delay after the final attempt (the delay list
has exactly `BLE_MAX_RETRIES` entries, one per non-final attempt); when the
failures are all timeouts the returned failure message is the timeout
message; and if the first success happens at attempt `k`, `connect()` returns
success immediately after `k + 1` attempts and `k` delays. -/
theorem ble_connect_retry_backoff (outcomes : Nat → AttemptOutcome) :
    ((∀ n, outcomes n ≠ AttemptOutcome.success) →
      (bleConnect outcomes).ok = false ∧
      (bleConnect outcomes).attempts = BLE_MAX_RETRIES + 1 ∧
      (bleConnect outcomes).delays =
        (List.range BLE_MAX_RETRIES).map (fun i => BLE_RETRY_DELAY * 2 ^ i)) ∧
    ((∀ n, outcomes n = AttemptOutcome.timeout) →
      (bleConnect outcomes).message = some "Connection attempt timed out.") ∧
    (∀ k, k ≤ BLE_MAX_RETRIES → (∀ n, n < k → outcomes n ≠ AttemptOutcome.success) →
      outcomes k = AttemptOutcome.success →
      (bleConnect outcomes).ok = true ∧
      (bleConnect outcomes).message = none ∧
      (bleConnect outcomes).attempts = k + 1 ∧
      (bleConnect outcomes).delays.length = k) := by
  refine ⟨?_, ?_, ?_⟩
  · intro h
    have h0 := h 0; have h1 := h 1; have h2 := h 2; have h3 := h 3
    cases ho0 : outcomes 0 <;> cases ho1 : outcomes 1 <;>
      cases ho2 : outcomes 2 <;> cases ho3 : outcomes 3 <;>
      simp_all [bleConnect, bleConnectAux, BLE_MAX_RETRIES, BLE_RETRY_DELAY,
        List.range_succ]
  · intro h
    have h0 := h 0; have h1 := h 1; have h2 := h 2; have h3 := h 3
    simp [bleConnect, bleConnectAux, h0, h1, h2, h3, BLE_MAX_RETRIES]
  · intro k hk hlt hsucc
    have hk3 : k ≤ 3 := hk
    interval_cases k
    · simp [bleConnect, bleConnectAux, hsucc]
    · have h0 := hlt 0 (by omega)
      cases ho0 : outcomes 0 <;>
        simp_all [bleConnect, bleConnectAux, BLE_MAX_RETRIES]
    · have h0 := hlt 0 (by omega); have h1 := hlt 1 (by omega)
      cases ho0 : outcomes 0 <;> cases ho1 : outcomes 1 <;>
        simp_all [bleConnect, bleConnectAux, BLE_MAX_RETRIES]
    · have h0 := hlt 0 (by omega); have h1 := hlt 1 (by omega)
      have h2 := hlt 2 (by omega)
      cases ho0 : outcomes 0 <;> cases ho1 : outcomes 1 <;>
        cases ho2 : outcomes 2 <;>
        simp_all [bleConnect, bleConnectAux, BLE_MAX_RETRIES]

/-- Witness for `ble_connect_retry_backoff`: the always-timeout transport and
a transport that succeeds on the third (0-indexed attempt 2) attempt. -/
theorem ble_connect_retry_backoff_witness :
    ((bleConnect fun _ => AttemptOutcome.timeout).ok = false ∧
      (bleConnect fun _ => AttemptOutcome.timeout).attempts = BLE_MAX_RETRIES + 1 ∧
      (bleConnect fun _ => AttemptOutcome.timeout).delays =
        (List.range BLE_MAX_RETRIES).map (fun i => BLE_RETRY_DELAY * 2 ^ i)) ∧
    (bleConnect fun _ => AttemptOutcome.timeout).message =
      some "Connection attempt timed out." ∧
    ((bleConnect fun n => if n < 2 then AttemptOutcome.timeout else AttemptOutcome.success).ok = true ∧
      (bleConnect fun n => if n < 2 then AttemptOutcome.timeout else AttemptOutcome.success).attempts = 3) := by
  refine ⟨(ble_connect_retry_backoff _).1 (fun n => by simp),
    (ble_connect_retry_backoff _).2.1 (fun n => rfl), ?_, ?_⟩
  · exact ((ble_connect_retry_backoff _).2.2 2 (by decide)
      (fun n hn => by simp [hn]) (by simp)).1
  · exact ((ble_connect_retry_backoff _).2.2 2 (by decide)
      (fun n hn => by simp [hn]) (by simp)).2.2.1

/-- A five-part appended string extends its first part. -/
theorem append5_exists (a b c d e : String) : ∃ r, a ++ b ++ c ++ d ++ e = a ++ r :=
  ⟨b ++ c ++ d ++ e, by simp [String.append_assoc]⟩

/-- A seven-part appended string extends its first part. -/
theorem append7_exists (a b c d e f g : String) :
    ∃ r, a ++ b ++ c ++ d ++ e ++ f ++ g = a ++ r :=
  ⟨b ++ c ++ d ++ e ++ f ++ g, by simp [String.append_assoc]⟩

/-- C10: a message event whose `sender_timestamp` is exactly `0` gets the
`"No timestamp"` time label, identical to an absent timestamp; a
clock-derived label (`fmt`) is produced only for present non-zero
timestamps; and every displayed line starts with the time label. -/
theorem timestamp_zero_no_label (fmt : Nat → String) :
    local_time fmt (some 0) = "No timestamp" ∧
    local_time fmt none = "No timestamp" ∧
    (∀ t, t ≠ 0 → local_time fmt (some t) = fmt t) ∧
    (∀ contacts channels ev, ∃ rest,
      message_callback contacts channels fmt ev =
        local_time fmt ev.sender_timestamp ++ rest) := by
  refine ⟨rfl, rfl, ?_, ?_⟩
  · intro t ht
    have h0 : (t == 0) = false := by simpa using ht
    simp [local_time, natTruthy, h0]
  · intro contacts channels ev
    obtain ⟨k, txt, pfx, snd, sname, cidx, ts⟩ := ev
    cases k with
    | contactMsgRecv =>
      simpa [message_callback] using
        append5_exists (local_time fmt ts) " [DM] "
          (message_callback_resolution contacts
            ⟨.contactMsgRecv, txt, pfx, snd, sname, cidx, ts⟩).label ": "
          (message_callback_resolution contacts
            ⟨.contactMsgRecv, txt, pfx, snd, sname, cidx, ts⟩).text
    | channelMsgRecv =>
      by_cases h : (message_callback_resolution contacts
          ⟨.channelMsgRecv, txt, pfx, snd, sname, cidx, ts⟩).isKnown
      · simpa [message_callback, h] using
          append7_exists (local_time fmt ts) " [" (channel_label_opt channels cidx) "] "
            (message_callback_resolution contacts
              ⟨.channelMsgRecv, txt, pfx, snd, sname, cidx, ts⟩).label ": "
            (message_callback_resolution contacts
              ⟨.channelMsgRecv, txt, pfx, snd, sname, cidx, ts⟩).text
      · simpa [message_callback, h] using
          append7_exists (local_time fmt ts) " [" (channel_label_opt channels cidx)
            "] Unknown Sender: "
            (message_callback_resolution contacts
              ⟨.channelMsgRecv, txt, pfx, snd, sname, cidx, ts⟩).label ": "
            (message_callback_resolution contacts
              ⟨.channelMsgRecv, txt, pfx, snd, sname, cidx, ts⟩).text

/-- Witness for `timestamp_zero_no_label` at a concrete formatter and a
concrete non-zero timestamp. -/
theorem timestamp_zero_no_label_witness :
    local_time (fun t => toString t) (some 0) = "No timestamp" ∧
    local_time (fun t => toString t) (some 5) = toString 5 :=
  ⟨(timestamp_zero_no_label _).1,
   (timestamp_zero_no_label _).2.2.1 5 (by decide)⟩

/-- C9: the channel label comes from the reverse id→name map of the current
channel collection: an id owned by no channel gets exactly
`"Channel {id}"`, and an id owned by some channel gets that channel's
name (the collection's last binding of the id). -/
theorem channel_label_reverse_map (channels : List (String × Nat)) (idx : Nat) :
    ((∀ p ∈ channels, p.2 ≠ idx) →
      channel_label channels idx = "Channel " ++ toString idx) ∧
    ((∃ p ∈ channels, p.2 = idx) →
      ∃ q ∈ channels, q.2 = idx ∧ channel_label channels idx = q.1) := by
  constructor
  · intro h
    have hnone : ((channels_by_id channels).reverse.find? fun p => p.1 == idx) = none := by
      rw [List.find?_eq_none]
      intro x hx
      rw [List.mem_reverse] at hx
      simp only [channels_by_id, List.mem_map] at hx
      obtain ⟨p, hp, rfl⟩ := hx
      simpa using h p hp
    simp [channel_label, dictGetLast, hnone]
  · rintro ⟨p, hp, hpidx⟩
    cases hf : ((channels_by_id channels).reverse.find? fun q => q.1 == idx) with
    | none =>
      rw [List.find?_eq_none] at hf
      have hmem : (p.2, p.1) ∈ (channels_by_id channels).reverse := by
        rw [List.mem_reverse]
        exact List.mem_map_of_mem _ hp
      exact absurd (by simpa using hf _ hmem) (by simp [hpidx])
    | some r =>
      have hr1 : r.1 = idx := by simpa using List.find?_some hf
      have hrmem : r ∈ channels_by_id channels :=
        List.mem_reverse.mp (List.mem_of_find?_eq_some hf)
      simp only [channels_by_id, List.mem_map] at hrmem
      obtain ⟨q, hq, hqr⟩ := hrmem
      refine ⟨q, hq, ?_, ?_⟩
      · have : (q.2, q.1).1 = idx := by rw [hqr, hr1]
        simpa using this
      · simp [channel_label, dictGetLast, hf, ← hqr]

/-- Witness for `channel_label_reverse_map`: an absent id and a present id. -/
theorem channel_label_reverse_map_witness :
    channel_label [("alpha", 1)] 9 = "Channel " ++ toString 9 ∧
    ∃ q ∈ [("alpha", 1)], q.2 = 1 ∧ channel_label [("alpha", 1)] 1 = q.1 :=
  ⟨(channel_label_reverse_map [("alpha", 1)] 9).1 (by decide),
   (channel_label_reverse_map [("alpha", 1)] 1).2 ⟨("alpha", 1), by simp, rfl⟩⟩

/-- C2 counterexample: from the Failed state left by an exhausted connect
(the radio object is still owned but carries no live session),
`disconnect()` does not clear the owned link: its guard
`if self.radio and self.radio.meshcore:` is false, so the manager still
owns the failed link afterwards, contradicting the claim that it then
owns no link (state Idle). -/
theorem disconnect_failed_state_keeps_link :
    (connector_disconnect false false
        (connect_radio false ⟨true, false, false, 0⟩).1).radioPresent = true := by
  decide

/-- C2 amended: `disconnect()` from a state with an owned link and a live
driver session always ends owning no link and no handler, errors during
the teardown being logged but never blocking the reset; when no link is
owned or the owned link has no live session (e.g. the Failed state left
by an exhausted connect), `disconnect()` is a no-op that leaves every
owned reference unchanged. -/
theorem disconnect_resets_only_active (stopRaises driverRaises : Bool) (s : ConnectorState) :
    (s.radioPresent = true → s.sessionActive = true →
      (connector_disconnect stopRaises driverRaises s).radioPresent = false ∧
      (connector_disconnect stopRaises driverRaises s).sessionActive = false ∧
      (connector_disconnect stopRaises driverRaises s).handlerPresent = false) ∧
    (s.handlerPresent = true → s.radioPresent = true → s.sessionActive = true →
      stopRaises = true →
      (connector_disconnect stopRaises driverRaises s).errorsLogged =
        s.errorsLogged + 1) ∧
    (s.radioPresent = false ∨ s.sessionActive = false →
      connector_disconnect stopRaises driverRaises s = s) := by
  obtain ⟨rp, sa, hp, el⟩ := s
  cases rp <;> cases sa <;> cases hp <;> cases stopRaises <;> cases driverRaises <;>
    simp [connector_disconnect]

/-- Witness for `disconnect_resets_only_active`: teardown with both errors
still resets and logs one error; a session-less state is untouched. -/
theorem disconnect_resets_only_active_witness :
    (connector_disconnect true true ⟨true, true, true, 0⟩).radioPresent = false ∧
    (connector_disconnect true true ⟨true, true, true, 0⟩).errorsLogged = 0 + 1 ∧
    connector_disconnect true true ⟨true, false, true, 0⟩ = ⟨true, false, true, 0⟩ :=
  ⟨((disconnect_resets_only_active true true ⟨true, true, true, 0⟩).1 rfl rfl).1,
   (disconnect_resets_only_active true true ⟨true, true, true, 0⟩).2.1 rfl rfl rfl rfl,
   (disconnect_resets_only_active true true ⟨true, false, true, 0⟩).2.2 (Or.inr rfl)⟩

/-- C6 counterexample: `start_listening` has no re-entrancy guard — after
two starts without an intervening stop the retained set holds six
subscriptions, neither empty nor exactly the three categories. -/
theorem double_start_duplicates :
    ¬((start_listening (start_listening initHandler)).subscriptions = [] ∨
      (start_listening (start_listening initHandler)).subscriptions.map
          Subscription.category = subPattern) := by
  decide

/-- The unsubscribe loop of `stop_listening` unsubscribes the longest
prefix of handles whose unsubscribe does not raise, and raises exactly
when some retained handle's unsubscribe fails. -/
theorem unsubscribeLoop_eq (fails : Nat → Bool) (l : List Subscription) :
    unsubscribeLoop fails l =
      (l.takeWhile (fun sub => !fails sub.handle), l.any fun sub => fails sub.handle) := by
  induction l with
  | nil => rfl
  | cons a t ih =>
    by_cases hf : fails a.handle <;>
      simp [unsubscribeLoop, hf, ih, List.takeWhile_cons]

/-- After any sequence of `start_listening` / (non-raising) `stop_listening`
operations, the retained subscription categories are exactly `k` copies
of the [direct, channel, contacts] pattern, where `k` counts the starts
since the last stop. -/
theorem runOps_categories (ops : List HandlerOp) :
    ∀ (s : HandlerState) (k : Nat),
      s.subscriptions.map Subscription.category = (List.replicate k subPattern).flatten →
      (runOps ops s).subscriptions.map Subscription.category =
        (List.replicate (startsAfterLastStop ops k) subPattern).flatten := by
  induction ops with
  | nil => intro s k h; exact h
  | cons op rest ih =>
    intro s k h
    cases op with
    | start =>
      refine ih _ (k + 1) ?_
      simp only [applyOp, start_listening, List.map_append, h, List.replicate_succ']
      simp [subPattern]
    | stop =>
      refine ih _ 0 ?_
      simp [applyOp, stop_listening, unsubscribeLoop_eq]

/-- C6 amended: the retained subscription set always consists of exactly
three handles (one per category, in the direct/channel/contacts pattern)
per `start()` since the last `stop()`; in particular a second `start()`
without an intervening `stop()` appends three further (duplicate)
subscriptions instead of being guarded against. -/
theorem subscriptions_pattern (ops : List HandlerOp) :
    (runOps ops initHandler).subscriptions.map Subscription.category =
      (List.replicate (startsAfterLastStop ops 0) subPattern).flatten :=
  runOps_categories ops initHandler 0 rfl

/-- C7 counterexample: with three retained subscriptions and an
`unsubscribe` that raises on the second handle, the third handle — whose
own unsubscribe would succeed — is never unsubscribed, and the retained
list survives: one failure does prevent the remaining handles from being
unsubscribed. -/
theorem stop_failure_aborts :
    Subscription.mk .contacts 2 ∈
      (⟨[⟨.contact_msg_recv, 0⟩, ⟨.channel_msg_recv, 1⟩, ⟨.contacts, 2⟩], 3, true⟩ :
        HandlerState).subscriptions ∧
    (fun h => h == 1) 2 = false ∧
    Subscription.mk .contacts 2 ∉
      (stop_listening (fun h => h == 1)
        ⟨[⟨.contact_msg_recv, 0⟩, ⟨.channel_msg_recv, 1⟩, ⟨.contacts, 2⟩], 3, true⟩).2.1 ∧
    (stop_listening (fun h => h == 1)
        ⟨[⟨.contact_msg_recv, 0⟩, ⟨.channel_msg_recv, 1⟩, ⟨.contacts, 2⟩], 3, true⟩).1.subscriptions ≠
      [] := by
  decide

/-- C7 amended: `stop()` unsubscribes the retained handles in order up to
the first raising unsubscribe; with no failure every handle is
unsubscribed, the retained list is cleared and auto-fetch stopped, while
a failure aborts the loop — later handles stay subscribed, the retained
list survives and auto-fetch keeps running (the exception propagates);
`stop()` on an already-stopped manager unsubscribes nothing and ends with
an empty list and stopped auto-fetch. -/
theorem stop_listening_behaviour (fails : Nat → Bool) (s : HandlerState) :
    ((∀ sub ∈ s.subscriptions, fails sub.handle = false) →
      stop_listening fails s =
        ({ s with subscriptions := [], autoFetch := false }, s.subscriptions, false)) ∧
    ((∃ sub ∈ s.subscriptions, fails sub.handle = true) →
      (stop_listening fails s).1 = s ∧
      (stop_listening fails s).2.2 = true ∧
      (stop_listening fails s).2.1 =
        s.subscriptions.takeWhile fun sub => !fails sub.handle) ∧
    (s.subscriptions = [] →
      stop_listening fails s = ({ s with subscriptions := [], autoFetch := false }, [], false)) := by
  refine ⟨?_, ?_, ?_⟩
  · intro h
    have hany : (s.subscriptions.any fun sub => fails sub.handle) = false := by
      simp only [List.any_eq_false]
      intro x hx
      simp [h x hx]
    have htake : (s.subscriptions.takeWhile fun sub => !fails sub.handle) =
        s.subscriptions := by
      rw [List.takeWhile_eq_self_iff]
      intro x hx
      simp [h x hx]
    simp [stop_listening, unsubscribeLoop_eq, hany, htake]
  · rintro ⟨sub, hmem, hfail⟩
    have hany : (s.subscriptions.any fun q => fails q.handle) = true :=
      List.any_eq_true.mpr ⟨sub, hmem, hfail⟩
    refine ⟨?_, ?_, ?_⟩ <;> simp [stop_listening, unsubscribeLoop_eq, hany]
  · intro h
    simp [stop_listening, unsubscribeLoop_eq, h]

/-- Witness for `stop_listening_behaviour`: a clean stop, a failing stop
and a stop on an already-stopped manager. -/
theorem stop_listening_behaviour_witness :
    stop_listening (fun _ => false)
        ⟨[⟨.contact_msg_recv, 0⟩, ⟨.channel_msg_recv, 1⟩, ⟨.contacts, 2⟩], 3, true⟩ =
      (⟨[], 3, false⟩, [⟨.contact_msg_recv, 0⟩, ⟨.channel_msg_recv, 1⟩, ⟨.contacts, 2⟩], false) ∧
    (stop_listening (fun h => h == 1)
        ⟨[⟨.contact_msg_recv, 0⟩, ⟨.channel_msg_recv, 1⟩, ⟨.contacts, 2⟩], 3, true⟩).2.2 = true ∧
    stop_listening (fun _ => true) ⟨[], 7, false⟩ = (⟨[], 7, false⟩, [], false) := by
  refine ⟨?_, ?_, ?_⟩
  · exact (stop_listening_behaviour (fun _ => false) _).1 (by decide)
  · exact ((stop_listening_behaviour (fun h => h == 1) _).2.1
      ⟨⟨.channel_msg_recv, 1⟩, by decide, by decide⟩).2.1
  · exact (stop_listening_behaviour (fun _ => true) ⟨[], 7, false⟩).2.2 rfl

/-- C8 counterexample: with no active link, `send_advert` returns the same
bare `False` as a transport-level send failure, and
`get_contacts_and_channels` returns the same empty lists as a successful
fetch that found nothing — neither is a distinguishable NotConnected
error. -/
theorem no_link_indistinguishable :
    (send_advert none false).1 = (send_advert (some ()) true).1 ∧
    get_contacts_and_channels none (some [("AB", ⟨some "Bob", none, some 1⟩)])
        (fun _ => ProbeOutcome.ok (some "#chan")) =
      get_contacts_and_channels (some ()) none (fun _ => ProbeOutcome.errRaised) := by
  decide

/-- C8 amended: with no active link every send/fetch operation returns
immediately with zero driver calls (never retried); `send_message` and
`send_channel_message` return a distinct "Radio not connected" message
that differs from every transport-failure message; but `send_advert`
returns a bare `False` indistinguishable from a transport failure, and
`get_contacts_and_channels` returns empty contact and channel lists
indistinguishable from a successful empty fetch. -/
theorem no_link_errors (e : String) (f : Option String) (b : Bool)
    (cr : Option (List (String × ContactEntry))) (probe : Nat → ProbeOutcome) :
    send_message none f = ((false, some "Radio not connected. Cannot send message."), 0) ∧
    send_message (some ()) (some e) =
      ((false, some ("Error sending message: " ++ e)), 1) ∧
    "Radio not connected. Cannot send message." ≠ "Error sending message: " ++ e ∧
    send_channel_message none f =
      ((false, some "Radio not connected. Cannot send channel message."), 0) ∧
    send_channel_message (some ()) (some e) =
      ((false, some ("Error sending channel message: " ++ e)), 1) ∧
    "Radio not connected. Cannot send channel message." ≠
      "Error sending channel message: " ++ e ∧
    send_advert none b = (false, 0) ∧
    get_contacts_and_channels none cr probe = ([], []) := by
  refine ⟨rfl, rfl, ?_, rfl, rfl, ?_, rfl, rfl⟩
  · intro h
    have h1 : ("Radio not connected. Cannot send message.").data.head? =
        ("Error sending message: " ++ e).data.head? := by rw [h]
    rw [String.data_append, List.head?_append] at h1
    rw [show ("Error sending message: ").data.head? = some 'E' from rfl] at h1
    rw [show Option.or (some 'E') (e.data.head?) = some 'E' from rfl] at h1
    rw [show ("Radio not connected. Cannot send message.").data.head? = some 'R' from rfl] at h1
    exact absurd h1 (by decide)
  · intro h
    have h1 : ("Radio not connected. Cannot send channel message.").data.head? =
        ("Error sending channel message: " ++ e).data.head? := by rw [h]
    rw [String.data_append, List.head?_append] at h1
    rw [show ("Error sending channel message: ").data.head? = some 'E' from rfl] at h1
    rw [show Option.or (some 'E') (e.data.head?) = some 'E' from rfl] at h1
    rw [show ("Radio not connected. Cannot send channel message.").data.head? = some 'R' from rfl]
      at h1
    exact absurd h1 (by decide)

/-- Witness for `no_link_errors` at concrete arguments. -/
theorem no_link_errors_witness :
    send_message none (some "boom") =
      ((false, some "Radio not connected. Cannot send message."), 0) ∧
    "Radio not connected. Cannot send message." ≠ "Error sending message: " ++ "boom" ∧
    send_advert none true = (false, 0) ∧
    get_contacts_and_channels none none (fun _ => ProbeOutcome.evErr) = ([], []) := by
  have h := no_link_errors "boom" (some "boom") true none (fun _ => ProbeOutcome.evErr)
  exact ⟨h.1, h.2.2.1, h.2.2.2.2.2.2.1, h.2.2.2.2.2.2.2⟩

/-- Membership in the occupied-slot list built from index `i` onward. -/
theorem slotsOccupiedFrom_mem (j : Nat) (n : String) :
    ∀ (l : List (Option String)) (i : Nat),
      ((j, n) ∈ slotsOccupiedFrom i l ↔ ∃ k, j = i + k ∧ l[k]? = some (some n)) := by
  intro l
  induction l with
  | nil => intro i; simp [slotsOccupiedFrom]
  | cons hd tl ih =>
    intro i
    cases hd with
    | none =>
      rw [show slotsOccupiedFrom i (none :: tl) = slotsOccupiedFrom (i + 1) tl from rfl]
      rw [ih (i + 1)]
      constructor
      · rintro ⟨k, rfl, hk⟩
        exact ⟨k + 1, by omega, by simpa using hk⟩
      · rintro ⟨k, rfl, hk⟩
        cases k with
        | zero => simp at hk
        | succ k => exact ⟨k, by omega, by simpa using hk⟩
    | some m =>
      rw [show slotsOccupiedFrom i (some m :: tl) =
        (i, m) :: slotsOccupiedFrom (i + 1) tl from rfl]
      rw [List.mem_cons, ih (i + 1)]
      constructor
      · rintro (heq | ⟨k, rfl, hk⟩)
        · have hj : j = i := congrArg Prod.fst heq
          have hn : n = m := congrArg Prod.snd heq
          exact ⟨0, by omega, by simp [hn]⟩
        · exact ⟨k + 1, by omega, by simpa using hk⟩
      · rintro ⟨k, rfl, hk⟩
        cases k with
        | zero =>
          left
          simp only [List.getElem?_cons_zero, Option.some.injEq] at hk
          simp [hk]
        | succ k => exact Or.inr ⟨k, by omega, by simpa using hk⟩

/-- The occupied-slot list is exactly the occupied `(id, name)` pairs. -/
theorem slotsOccupied_mem (slots : List (Option String)) (j : Nat) (n : String) :
    (j, n) ∈ slotsOccupied slots ↔ slots[j]? = some (some n) := by
  rw [slotsOccupied, slotsOccupiedFrom_mem]
  constructor
  · rintro ⟨k, rfl, hk⟩
    simpa using hk
  · intro h
    exact ⟨j, by omega, h⟩

/-- A found first-empty-slot index really is an empty slot. -/
theorem firstEmptySlotFrom_some (j : Nat) :
    ∀ (l : List (Option String)) (i : Nat), firstEmptySlotFrom i l = some j →
      i ≤ j ∧ j - i < l.length ∧ l[j - i]? = some none := by
  intro l
  induction l with
  | nil => intro i h; simp [firstEmptySlotFrom] at h
  | cons hd tl ih =>
    intro i h
    cases hd with
    | none =>
      rw [show firstEmptySlotFrom i (none :: tl) = some i from rfl] at h
      obtain rfl : i = j := by simpa using h
      refine ⟨Nat.le_refl _, by simp, by simp⟩
    | some m =>
      have h' := ih (i + 1)
        (by rw [show firstEmptySlotFrom i (some m :: tl) =
          firstEmptySlotFrom (i + 1) tl from rfl] at h; exact h)
      obtain ⟨h1, h2, h3⟩ := h'
      refine ⟨by omega, by simp; omega, ?_⟩
      rw [show j - i = (j - (i + 1)) + 1 by omega]
      simpa using h3

/-- When no first empty slot is found, no slot is empty. -/
theorem firstEmptySlotFrom_none :
    ∀ (l : List (Option String)) (i : Nat), firstEmptySlotFrom i l = none →
      ∀ k : Nat, l[k]? ≠ some none := by
  intro l
  induction l with
  | nil => intro i h k; simp
  | cons hd tl ih =>
    intro i h k
    cases hd with
    | none => simp [firstEmptySlotFrom] at h
    | some m =>
      rw [show firstEmptySlotFrom i (some m :: tl) =
        firstEmptySlotFrom (i + 1) tl from rfl] at h
      cases k with
      | zero => simp
      | succ k => simpa using ih (i + 1) h k

/-- C4 (join/overwrite workflow, modelled from the spec since the
implementation is absent from src/): when an empty slot exists,
`join_public_channel` commits the join into an empty slot and returns
Joined; when none exists it returns OverwriteRequired with the complete
occupied `(id, name)` list and leaves the slots unchanged; and
`overwrite_public_channel` with a valid chosen slot commits the join into
that slot, replacing its previous occupant, and returns Joined. -/
theorem join_overwrite_contract (slots : List (Option String)) (name : String) (slotId : Nat) :
    ((∃ k : Nat, slots[k]? = some none) →
      (join_public_channel slots name).1 = JoinOutcome.joined ∧
      ∃ i : Nat, slots[i]? = some none ∧
        (join_public_channel slots name).2 = slots.set i (some name)) ∧
    ((∀ k : Nat, slots[k]? ≠ some none) →
      join_public_channel slots name =
        (JoinOutcome.overwriteRequired (slotsOccupied slots), slots) ∧
      ∀ (j : Nat) (n : String), ((j, n) ∈ slotsOccupied slots ↔ slots[j]? = some (some n))) ∧
    (slotId < slots.length →
      (overwrite_public_channel slots name slotId).1 = JoinOutcome.joined ∧
      (overwrite_public_channel slots name slotId).2 = slots.set slotId (some name)) := by
  refine ⟨?_, ?_, ?_⟩
  · rintro ⟨k, hk⟩
    cases hf : firstEmptySlot slots with
    | none => exact absurd hk (firstEmptySlotFrom_none slots 0 hf k)
    | some j =>
      have hj := firstEmptySlotFrom_some j slots 0 hf
      exact ⟨by simp [join_public_channel, hf],
        ⟨j, by simpa using hj.2.2, by simp [join_public_channel, hf]⟩⟩
  · intro h
    cases hf : firstEmptySlot slots with
    | some j =>
      have hj := firstEmptySlotFrom_some j slots 0 hf
      exact absurd (by simpa using hj.2.2) (h j)
    | none =>
      exact ⟨by simp [join_public_channel, hf], fun j n => slotsOccupied_mem slots j n⟩
  · intro h
    simp [overwrite_public_channel, h]

/-- Witness for `join_overwrite_contract`: one free slot, a full radio,
and an overwrite into slot 0. -/
theorem join_overwrite_contract_witness :
    (join_public_channel [some "#a", none] "#new").1 = JoinOutcome.joined ∧
    join_public_channel [some "#a", some "#b"] "#new" =
      (JoinOutcome.overwriteRequired (slotsOccupied [some "#a", some "#b"]),
        [some "#a", some "#b"]) ∧
    (overwrite_public_channel [some "#a", some "#b"] "#new" 0).2 =
      [some "#a", some "#b"].set 0 (some "#new") := by
  refine ⟨?_, ?_, ?_⟩
  · exact ((join_overwrite_contract [some "#a", none] "#new" 0).1 ⟨1, rfl⟩).1
  · exact ((join_overwrite_contract [some "#a", some "#b"] "#new" 0).2.1
      (by intro k; match k with | 0 => simp | 1 => simp | n + 2 => simp)).1
  · exact ((join_overwrite_contract [some "#a", some "#b"] "#new" 0).2.2
      (by decide)).2

/-- A guarded first-match search fails exactly when the guarded existence
test fails. -/
theorem guardedFind_none {α : Type} (b : Bool) (l : List α) (p : α → Bool) :
    ((if b then l.find? p else none) = none) ↔ (b && l.any p) = false := by
  cases b <;> simp [List.find?_eq_none, List.any_eq_false]

set_option maxHeartbeats 1000000 in
/-- The imperative sender resolution of `message_callback` agrees with the
first-applicable-rule cascade of the specification. -/
theorem resolution_eq_spec_aux (contacts : List Contact) (ev : MsgEvent) :
    message_callback_resolution contacts ev = specSenderResolution contacts ev := by
  obtain ⟨k, txt, pfx, snd, sname, cidx, ts⟩ := ev
  simp only [message_callback_resolution, specSenderResolution]
  by_cases hs : strTruthy snd
  · rcases hf1 : contacts.find? fun c => c.public_key == snd.getD "" with _ | c1
    · rcases pfx with _ | ps
      · cases k with
        | contactMsgRecv =>
          rcases sname with _ | ns
          · simp_all [strTruthy, -List.find?_eq_none, -List.any_eq_true, -List.any_eq_false]
          · by_cases hr : ns == "" <;> simp_all [strTruthy, -List.find?_eq_none, -List.any_eq_true, -List.any_eq_false]
        | channelMsgRecv =>
          rcases hl : leadingNameSplit txt with _ | ⟨x, r⟩
          · rcases sname with _ | ns
            · simp_all [strTruthy, -List.find?_eq_none, -List.any_eq_true, -List.any_eq_false]
            · by_cases hr : ns == "" <;> simp_all [strTruthy, -List.find?_eq_none, -List.any_eq_true, -List.any_eq_false]
          · rcases hf3 : contacts.find? fun c => c.name == x with _ | c3
            · have hany : (contacts.any fun c => c.name == x) = false := by
                rw [List.any_eq_false]
                intro a ha
                simpa using List.find?_eq_none.mp hf3 a ha
              simp_all [strTruthy, -List.find?_eq_none, -List.any_eq_true, -List.any_eq_false]
            · have hpx : (fun c => c.name == x) c3 = true :=
        @List.find?_some Contact (fun c => c.name == x) c3 contacts hf3
              have hcx : c3.name = x := by simpa using hpx
              have hany : (contacts.any fun c => c.name == x) = true :=
                List.any_eq_true.mpr ⟨c3, List.mem_of_find?_eq_some hf3, hpx⟩
              simp_all [strTruthy, -List.find?_eq_none, -List.any_eq_true, -List.any_eq_false]
      · by_cases hq : ps == ""
        · cases k with
          | contactMsgRecv =>
            rcases sname with _ | ns
            · simp_all [strTruthy, -List.find?_eq_none, -List.any_eq_true, -List.any_eq_false]
            · by_cases hr : ns == "" <;> simp_all [strTruthy, -List.find?_eq_none, -List.any_eq_true, -List.any_eq_false]
          | channelMsgRecv =>
            rcases hl : leadingNameSplit txt with _ | ⟨x, r⟩
            · rcases sname with _ | ns
              · simp_all [strTruthy, -List.find?_eq_none, -List.any_eq_true, -List.any_eq_false]
              · by_cases hr : ns == "" <;> simp_all [strTruthy, -List.find?_eq_none, -List.any_eq_true, -List.any_eq_false]
            · rcases hf3 : contacts.find? fun c => c.name == x with _ | c3
              · have hany : (contacts.any fun c => c.name == x) = false := by
                  rw [List.any_eq_false]
                  intro a ha
                  simpa using List.find?_eq_none.mp hf3 a ha
                simp_all [strTruthy, -List.find?_eq_none, -List.any_eq_true, -List.any_eq_false]
              · have hpx : (fun c => c.name == x) c3 = true :=
        @List.find?_some Contact (fun c => c.name == x) c3 contacts hf3
                have hcx : c3.name = x := by simpa using hpx
                have hany : (contacts.any fun c => c.name == x) = true :=
                  List.any_eq_true.mpr ⟨c3, List.mem_of_find?_eq_some hf3, hpx⟩
                simp_all [strTruthy, -List.find?_eq_none, -List.any_eq_true, -List.any_eq_false]
        · rcases hf2 : contacts.find? fun c =>
              ((some ps).getD "").data.isPrefixOf c.public_key.data with _ | c2
          · cases k with
            | contactMsgRecv =>
              rcases sname with _ | ns
              · simp_all [strTruthy, -List.find?_eq_none, -List.any_eq_true, -List.any_eq_false]
              · by_cases hr : ns == "" <;> simp_all [strTruthy, -List.find?_eq_none, -List.any_eq_true, -List.any_eq_false]
            | channelMsgRecv =>
              rcases hl : leadingNameSplit txt with _ | ⟨x, r⟩
              · rcases sname with _ | ns
                · simp_all [strTruthy, -List.find?_eq_none, -List.any_eq_true, -List.any_eq_false]
                · by_cases hr : ns == "" <;> simp_all [strTruthy, -List.find?_eq_none, -List.any_eq_true, -List.any_eq_false]
              · rcases hf3 : contacts.find? fun c => c.name == x with _ | c3
                · have hany : (contacts.any fun c => c.name == x) = false := by
                    rw [List.any_eq_false]
                    intro a ha
                    simpa using List.find?_eq_none.mp hf3 a ha
                  simp_all [strTruthy, -List.find?_eq_none, -List.any_eq_true, -List.any_eq_false]
                · have hpx : (fun c => c.name == x) c3 = true :=
        @List.find?_some Contact (fun c => c.name == x) c3 contacts hf3
                  have hcx : c3.name = x := by simpa using hpx
                  have hany : (contacts.any fun c => c.name == x) = true :=
                    List.any_eq_true.mpr ⟨c3, List.mem_of_find?_eq_some hf3, hpx⟩
                  simp_all [strTruthy, -List.find?_eq_none, -List.any_eq_true, -List.any_eq_false]
          · simp_all [strTruthy, -List.find?_eq_none, -List.any_eq_true, -List.any_eq_false]
    · simp [hs, hf1]
  · rcases pfx with _ | ps
    · cases k with
      | contactMsgRecv =>
        rcases sname with _ | ns
        · simp_all [strTruthy, -List.find?_eq_none, -List.any_eq_true, -List.any_eq_false]
        · by_cases hr : ns == "" <;> simp_all [strTruthy, -List.find?_eq_none, -List.any_eq_true, -List.any_eq_false]
      | channelMsgRecv =>
        rcases hl : leadingNameSplit txt with _ | ⟨x, r⟩
        · rcases sname with _ | ns
          · simp_all [strTruthy, -List.find?_eq_none, -List.any_eq_true, -List.any_eq_false]
          · by_cases hr : ns == "" <;> simp_all [strTruthy, -List.find?_eq_none, -List.any_eq_true, -List.any_eq_false]
        · rcases hf3 : contacts.find? fun c => c.name == x with _ | c3
          · have hany : (contacts.any fun c => c.name == x) = false := by
              rw [List.any_eq_false]
              intro a ha
              simpa using List.find?_eq_none.mp hf3 a ha
            simp_all [strTruthy, -List.find?_eq_none, -List.any_eq_true, -List.any_eq_false]
          · have hpx : (fun c => c.name == x) c3 = true :=
        @List.find?_some Contact (fun c => c.name == x) c3 contacts hf3
            have hcx : c3.name = x := by simpa using hpx
            have hany : (contacts.any fun c => c.name == x) = true :=
              List.any_eq_true.mpr ⟨c3, List.mem_of_find?_eq_some hf3, hpx⟩
            simp_all [strTruthy, -List.find?_eq_none, -List.any_eq_true, -List.any_eq_false]
    · by_cases hq : ps == ""
      · cases k with
        | contactMsgRecv =>
          rcases sname with _ | ns
          · simp_all [strTruthy, -List.find?_eq_none, -List.any_eq_true, -List.any_eq_false]
          · by_cases hr : ns == "" <;> simp_all [strTruthy, -List.find?_eq_none, -List.any_eq_true, -List.any_eq_false]
        | channelMsgRecv =>
          rcases hl : leadingNameSplit txt with _ | ⟨x, r⟩
          · rcases sname with _ | ns
            · simp_all [strTruthy, -List.find?_eq_none, -List.any_eq_true, -List.any_eq_false]
            · by_cases hr : ns == "" <;> simp_all [strTruthy, -List.find?_eq_none, -List.any_eq_true, -List.any_eq_false]
          · rcases hf3 : contacts.find? fun c => c.name == x with _ | c3
            · have hany : (contacts.any fun c => c.name == x) = false := by
                rw [List.any_eq_false]
                intro a ha
                simpa using List.find?_eq_none.mp hf3 a ha
              simp_all [strTruthy, -List.find?_eq_none, -List.any_eq_true, -List.any_eq_false]
            · have hpx : (fun c => c.name == x) c3 = true :=
        @List.find?_some Contact (fun c => c.name == x) c3 contacts hf3
              have hcx : c3.name = x := by simpa using hpx
              have hany : (contacts.any fun c => c.name == x) = true :=
                List.any_eq_true.mpr ⟨c3, List.mem_of_find?_eq_some hf3, hpx⟩
              simp_all [strTruthy, -List.find?_eq_none, -List.any_eq_true, -List.any_eq_false]
      · rcases hf2 : contacts.find? fun c =>
            ((some ps).getD "").data.isPrefixOf c.public_key.data with _ | c2
        · cases k with
          | contactMsgRecv =>
            rcases sname with _ | ns
            · simp_all [strTruthy, -List.find?_eq_none, -List.any_eq_true, -List.any_eq_false]
            · by_cases hr : ns == "" <;> simp_all [strTruthy, -List.find?_eq_none, -List.any_eq_true, -List.any_eq_false]
          | channelMsgRecv =>
            rcases hl : leadingNameSplit txt with _ | ⟨x, r⟩
            · rcases sname with _ | ns
              · simp_all [strTruthy, -List.find?_eq_none, -List.any_eq_true, -List.any_eq_false]
              · by_cases hr : ns == "" <;> simp_all [strTruthy, -List.find?_eq_none, -List.any_eq_true, -List.any_eq_false]
            · rcases hf3 : contacts.find? fun c => c.name == x with _ | c3
              · have hany : (contacts.any fun c => c.name == x) = false := by
                  rw [List.any_eq_false]
                  intro a ha
                  simpa using List.find?_eq_none.mp hf3 a ha
                simp_all [strTruthy, -List.find?_eq_none, -List.any_eq_true, -List.any_eq_false]
              · have hpx : (fun c => c.name == x) c3 = true :=
        @List.find?_some Contact (fun c => c.name == x) c3 contacts hf3
                have hcx : c3.name = x := by simpa using hpx
                have hany : (contacts.any fun c => c.name == x) = true :=
                  List.any_eq_true.mpr ⟨c3, List.mem_of_find?_eq_some hf3, hpx⟩
                simp_all [strTruthy, -List.find?_eq_none, -List.any_eq_true, -List.any_eq_false]
        · simp_all [strTruthy, -List.find?_eq_none, -List.any_eq_true, -List.any_eq_false]

/-- C3: for every inbound message event and contacts snapshot, the sender
label, the known-contact mark and the displayed text are determined by
the first applicable rule in the fixed order: (1) full-key contact match,
known; (2) key-prefix contact match, known; (3) channel messages only —
leading `name: ` parsed from the raw text used as label and stripped from
the displayed text, known exactly when the name equals some contact's
name; (4) the payload sender display name; (5) the raw key prefix; (6)
the literal `"Unknown"`. -/
theorem sender_resolution_order (contacts : List Contact) (ev : MsgEvent) :
    message_callback_resolution contacts ev = specSenderResolution contacts ev :=
  resolution_eq_spec_aux contacts ev

/-- C5 counterexample: for the channel message `"Alice: hi @[Carol]"` with
no contact match, step 3 strips the leading name from the *original*
(un-normalized) text, so the displayed text is `"hi @[Carol]"` — the
bracketed mention form survives into the final displayed text. -/
theorem mention_markup_survives_strip :
    (message_callback_resolution []
        ⟨.channelMsgRecv, "Alice: hi @[Carol]", none, none, none, some 0, some 0⟩).text =
      "hi @[Carol]" ∧
    "@[Carol]".data <:+: (message_callback_resolution []
        ⟨.channelMsgRecv, "Alice: hi @[Carol]", none, none, none, some 0, some 0⟩).text.data :=
  ⟨rfl, "hi ".data, [], rfl⟩

/-- C5 amended: `@[name]` → `@name` normalization is applied once to the
message text before resolution, and the displayed text is that normalized
text in every run that does not strip a leading `name: ` prefix in step 3
of the resolution; in a run that does strip (channel message, no
key-based contact match, parsable leading prefix), the displayed text is
instead the stripped remainder of the original un-normalized raw text —
so bracketed mentions can survive in exactly that case. -/
theorem mention_normalization_scope (contacts : List Contact) (ev : MsgEvent) :
    (stripsLeadingName contacts ev = false →
      (message_callback_resolution contacts ev).text = normalizeMentions ev.text) ∧
    (stripsLeadingName contacts ev = true →
      ∃ x r, leadingNameSplit ev.text = some (x, r) ∧
        (message_callback_resolution contacts ev).text = r) := by
  rw [resolution_eq_spec_aux]
  constructor
  · intro h
    simp only [specSenderResolution]
    rcases hA : (if strTruthy ev.sender then
        contacts.find? fun c => c.public_key == ev.sender.getD "" else none) with _ | c1
    case some => simp [hA]
    case none =>
    rcases hB : (if strTruthy ev.pubkey_pfx then
        contacts.find? fun c => (ev.pubkey_pfx.getD "").data.isPrefixOf c.public_key.data
      else none) with _ | c2
    case some => simp [hA, hB]
    case none =>
    rcases hC : (if ev.kind = EventKind.channelMsgRecv then leadingNameSplit ev.text
      else none) with _ | ⟨x, r⟩
    case none =>
      rcases hD : (if strTruthy ev.sender_name then ev.sender_name else none) with _ | n <;>
        rcases hE : (if strTruthy ev.pubkey_pfx then ev.pubkey_pfx else none) with _ | p <;>
        simp [hA, hB, hC, hD, hE]
    case some =>
      exfalso
      by_cases hk : ev.kind = EventKind.channelMsgRecv
      case neg => simp [hk] at hC
      case pos =>
      rw [hk] at hC
      simp only [if_true, reduceIte] at hC
      have hA2 := (guardedFind_none _ _ _).mp hA
      have hB2 := (guardedFind_none _ _ _).mp hB
      rw [stripsLeadingName] at h
      rw [hk, hC] at h
      simp [hA2, hB2] at h
  · intro h
    rw [stripsLeadingName] at h
    simp only [Bool.and_eq_true, Bool.not_eq_eq_eq_not, Bool.not_true, beq_iff_eq] at h
    obtain ⟨⟨⟨hk, hnA⟩, hnB⟩, hsome⟩ := h
    have hA : (if strTruthy ev.sender then
        contacts.find? fun c => c.public_key == ev.sender.getD "" else none) = none :=
      (guardedFind_none _ _ _).mpr hnA
    have hB : (if strTruthy ev.pubkey_pfx then
        contacts.find? fun c => (ev.pubkey_pfx.getD "").data.isPrefixOf c.public_key.data
      else none) = none :=
      (guardedFind_none _ _ _).mpr hnB
    obtain ⟨⟨x, r⟩, hxr⟩ := Option.isSome_iff_exists.mp hsome
    refine ⟨x, r, hxr, ?_⟩
    simp only [specSenderResolution]
    simp [hA, hB, hk, hxr]

/-- Witness for `mention_normalization_scope`: a direct message keeps the
normalized text; a channel message with a leading name prefix displays
the raw remainder. -/
theorem mention_normalization_scope_witness :
    (message_callback_resolution []
        ⟨.contactMsgRecv, "yo @[Dan]", none, none, none, none, none⟩).text =
      normalizeMentions "yo @[Dan]" ∧
    ∃ x r, leadingNameSplit "Bob: yo @[Dan]" = some (x, r) ∧
      (message_callback_resolution []
        ⟨.channelMsgRecv, "Bob: yo @[Dan]", none, none, none, none, none⟩).text = r := by
  constructor
  · exact (mention_normalization_scope []
      ⟨.contactMsgRecv, "yo @[Dan]", none, none, none, none, none⟩).1 (by decide)
  · exact (mention_normalization_scope []
      ⟨.channelMsgRecv, "Bob: yo @[Dan]", none, none, none, none, none⟩).2 (by decide)

end MeschaTUI
